import Mathlib

/-!
Verification of the multi-tier caching and fallback-aggregation layer of a
basketball shot-statistics API (`app/main.py`).

The Python source is shallowly embedded: Python dicts (which preserve
insertion order) become association lists, `time.monotonic()` timestamps and
float quantities become rationals, fallible remote calls become `Except`
parameters, and `math.sqrt` (a float operation) is passed in as an explicit
function parameter `s : ℚ → ℚ`, since every verified property is independent
of its value.
-/

namespace ShotIQ

/-- Timestamps (`time.monotonic()` values) are modelled as rationals. -/
abbrev Time := ℚ

/-- Lookup in an insertion-ordered association list (Python `dict.get`). -/
def lookupKey {β : Type} (k : String) : List (String × β) → Option β
  | [] => none
  | (k2, v) :: rest => if k2 = k then some v else lookupKey k rest

/-- Assignment `d[k] = v` on an insertion-ordered dict: overwrite in place,
else append at the end. -/
def setKey {β : Type} (k : String) (v : β) : List (String × β) → List (String × β)
  | [] => [(k, v)]
  | (k2, v2) :: rest => if k2 = k then (k, v) :: rest else (k2, v2) :: setKey k v rest

/-- Removal `d.pop(k, None)` on an insertion-ordered dict. -/
def popKey {β : Type} (k : String) : List (String × β) → List (String × β)
  | [] => []
  | (k2, v2) :: rest => if k2 = k then rest else (k2, v2) :: popKey k rest

/-- The in-process cache `_cache : Dict[str, Tuple[float, Any]]` mapping a
key to `(expires_at, data)` (`app/main.py` line 90). -/
abbrev CacheState (α : Type) := List (String × (Time × α))

/-- `cache_set(key, data, ttl_seconds)` (`app/main.py` lines 112-113):
`_cache[key] = (monotonic() + ttl_seconds, data)`. -/
def cache_set {α : Type} (c : CacheState α) (key : String) (data : α)
    (ttl_seconds : ℤ) (now : Time) : CacheState α :=
  setKey key (now + (ttl_seconds : ℚ), data) c

/-- `cache_get(key)` (`app/main.py` lines 101-109).  Returns the data when
the entry exists and `monotonic() > expires_at` fails; a strictly expired
entry is popped and treated as absent.  The result pairs the returned value
with the possibly-updated cache state. -/
def cache_get {α : Type} (c : CacheState α) (key : String) (now : Time) :
    Option α × CacheState α :=
  match lookupKey key c with
  | none => (none, c)
  | some (expires_at, data) =>
      if now > expires_at then (none, popKey key c) else (some data, c)

/-- Python `round` to an integer: round-half-to-even. -/
def rhe (q : ℚ) : ℤ :=
  if q - ⌊q⌋ < 1 / 2 then ⌊q⌋
  else if q - ⌊q⌋ > 1 / 2 then ⌊q⌋ + 1
  else if ⌊q⌋ % 2 = 0 then ⌊q⌋ else ⌊q⌋ + 1

/-- Python `round(q, ndigits)`. -/
def pyround (ndigits : ℕ) (q : ℚ) : ℚ :=
  (rhe (q * 10 ^ ndigits) : ℚ) / 10 ^ ndigits

/-- Python `r.get(k) or default` on an optional string: `None` and the empty
string are falsy. -/
def pyOrStr (o : Option String) (d : String) : String :=
  match o with
  | none => d
  | some s => if s = "" then d else s

/-- One row of the `shots` table as consumed by the fallback aggregation:
float columns are rationals, nullable columns are `Option`, and the truthiness
of `shot_made_flag` is precomputed as a `Bool`. -/
structure ShotRow where
  player_name : Option String
  loc_x : Option ℚ
  loc_y : Option ℚ
  shot_made_flag : Bool
  shot_distance : Option ℚ
  shot_type : Option String
  action_type : Option String
  year : Option ℤ
deriving DecidableEq

/-- Distance resolution (`app/main.py` lines 149-151): use `shot_distance`
when present, else recompute from the coordinates.  `s` models `math.sqrt`
applied to `loc_x ** 2 + loc_y ** 2`. -/
def resolveDist (s : ℚ → ℚ) (r : ShotRow) : Option ℚ :=
  match r.shot_distance with
  | some d => some d
  | none =>
      match r.loc_x, r.loc_y with
      | some x, some y => some (s (x ^ 2 + y ^ 2))
      | _, _ => none

/-- Distance-based zone banding (`app/main.py` lines 171-181). -/
def zoneLabel (dist : Option ℚ) : String :=
  match dist with
  | none => "3PT (22+ft)"
  | some d =>
      if d ≤ 5 then "Paint (0-5ft)"
      else if d ≤ 10 then "Short (5-10ft)"
      else if d ≤ 15 then "Mid (10-15ft)"
      else if d ≤ 22 then "Long 2 (15-22ft)"
      else "3PT (22+ft)"

/-- `r.get("shot_type") or "Unknown"` (`app/main.py` line 155). -/
def stypeOf (r : ShotRow) : String := pyOrStr r.shot_type "Unknown"

/-- `r.get("action_type") or "Other"` (`app/main.py` line 166). -/
def actionOf (r : ShotRow) : String := pyOrStr r.action_type "Other"

/-- The zone label assigned to one row (`app/main.py` lines 171-181). -/
def rowZone (s : ℚ → ℚ) (r : ShotRow) : String := zoneLabel (resolveDist s r)

/-- One group-by cell `{"attempts": ..., "made": ...}`. -/
structure Counts where
  attempts : ℕ
  made : ℕ
deriving DecidableEq

/-- `d.setdefault(k, {"attempts": 0, "made": 0})` followed by the two
increments (`app/main.py` lines 156-158 and analogues): a new key is appended
at the end of the insertion-ordered dict. -/
def bump {K : Type} [DecidableEq K] (k : K) (made : Bool) :
    List (K × Counts) → List (K × Counts)
  | [] => [(k, ⟨1, if made then 1 else 0⟩)]
  | (k2, c) :: rest =>
      if k2 = k then (k2, ⟨c.attempts + 1, c.made + if made then 1 else 0⟩) :: rest
      else (k2, c) :: bump k made rest

/-- Folding one group-by dict over the row loop.  The single Python `for`
loop updates four independent dicts; each is modelled as its own fold over
the (key, made-flag) projection of the rows. -/
def tally {K : Type} [DecidableEq K] (es : List (K × Bool)) : List (K × Counts) :=
  es.foldl (fun m e => bump e.1 e.2 m) []

/-- One entry of a breakdown table as produced by `to_list`
(`app/main.py` lines 186-197): `key` is the `"label"` or `"year"` field. -/
structure Entry (K : Type) where
  key : K
  attempts : ℕ
  made : ℕ
  fg_pct : ℚ
deriving DecidableEq

/-- The item-construction loop of `to_list` (`app/main.py` lines 188-192). -/
def toEntries {K : Type} (m : List (K × Counts)) : List (Entry K) :=
  m.map (fun kv =>
    { key := kv.1, attempts := kv.2.attempts, made := kv.2.made,
      fg_pct := pyround 3
        (if kv.2.attempts ≠ 0 then (kv.2.made : ℚ) / kv.2.attempts else 0) })

/-- Stable descending insertion by a key function: the new element goes
before the first element whose key is ≤ its own, hence after earlier equals. -/
def insertDescBy {α : Type} (f : α → ℤ) (e : α) : List α → List α
  | [] => [e]
  | x :: xs => if f x ≤ f e then e :: x :: xs else x :: insertDescBy f e xs

/-- Python `items.sort(key=sort_key, reverse=True)`: a stable descending
sort (ties keep original encounter order). -/
def sortDescBy {α : Type} (f : α → ℤ) : List α → List α
  | [] => []
  | x :: xs => insertDescBy f x (sortDescBy f xs)

/-- `to_list(d, sort_key, limit)` (`app/main.py` lines 186-197); the
truncation is guarded by Python truthiness (`if limit:`). -/
def to_list {K : Type} (m : List (K × Counts)) (sort_key : Option (Entry K → ℤ))
    (limit : Option ℕ) : List (Entry K) :=
  let items := toEntries m
  let items := match sort_key with
    | some f => sortDescBy f items
    | none => items
  match limit with
  | some n => if n ≠ 0 then items.take n else items
  | none => items

/-- The summary dict returned by `_compute_stats_from_rows`
(`app/main.py` lines 201-211). -/
structure PlayerSummary where
  player_name : Option String
  total_shots : ℕ
  made_shots : ℕ
  fg_pct : ℚ
  avg_distance : Option ℚ
  shot_types : List (Entry String)
  seasons : List (Entry ℤ)
  zones : List (Entry String)
  actions : List (Entry String)

/-- The `distances` list collected by the row loop
(`app/main.py` lines 149-153). -/
def distancesOf (s : ℚ → ℚ) (rows : List ShotRow) : List ℚ :=
  rows.filterMap (resolveDist s)

/-- `_compute_stats_from_rows(rows)` (`app/main.py` lines 135-211); the
empty dict returned for empty input becomes `none`. -/
def _compute_stats_from_rows (s : ℚ → ℚ) (rows : List ShotRow) :
    Option PlayerSummary :=
  if rows = [] then none
  else
    let total_shots := rows.length
    let made_shots := rows.countP (fun r => r.shot_made_flag)
    let distances := distancesOf s rows
    let shot_types := tally (rows.map (fun r => (stypeOf r, r.shot_made_flag)))
    let seasons := tally (rows.filterMap
      (fun r => r.year.map (fun y => (y, r.shot_made_flag))))
    let actions := tally (rows.map (fun r => (actionOf r, r.shot_made_flag)))
    let zones := tally (rows.map (fun r => (rowZone s r, r.shot_made_flag)))
    let avg_distance : Option ℚ :=
      if distances = [] then none else some (distances.sum / distances.length)
    some {
      player_name := rows.head?.bind (fun r => r.player_name)
      total_shots := total_shots
      made_shots := made_shots
      fg_pct := if total_shots ≠ 0 then pyround 3 ((made_shots : ℚ) / total_shots) else 0
      avg_distance := avg_distance.map (pyround 1)
      shot_types := to_list shot_types (some (fun x => (x.attempts : ℤ))) none
      seasons := to_list seasons (some (fun x => x.key)) none
      zones := to_list zones (some (fun x => (x.attempts : ℤ))) none
      actions := to_list actions (some (fun x => (x.attempts : ℤ))) (some 10) }

/-- Sum of the `attempts` fields over a breakdown table. -/
def entriesAttempts {K : Type} (l : List (Entry K)) : ℕ :=
  (l.map (fun e => e.attempts)).sum

/-- Sum of the `made` fields over a breakdown table. -/
def entriesMade {K : Type} (l : List (Entry K)) : ℕ :=
  (l.map (fun e => e.made)).sum

/-- Sum of the `attempts` cells over a group-by dict. -/
def sumAttempts {K : Type} (m : List (K × Counts)) : ℕ :=
  (m.map (fun kv => kv.2.attempts)).sum

/-- Sum of the `made` cells over a group-by dict. -/
def sumMade {K : Type} (m : List (K × Counts)) : ℕ :=
  (m.map (fun kv => kv.2.made)).sum

/-- One entry of the prefetched roster snapshot `_players_cache["data"]`;
the `.get(key, default)` accesses are modelled with `Option` fields. -/
structure RosterEntry where
  name : Option String
  total_shots : Option ℤ
  fg_pct : Option ℚ
deriving DecidableEq

/-- `p.get("total_shots", 0)` (`app/main.py` line 306). -/
def rosterShots (p : RosterEntry) : ℤ := p.total_shots.getD 0

/-- `p.get("name", "")` (`app/main.py` line 307). -/
def rosterName (p : RosterEntry) : String := p.name.getD ""

/-- Python `str.lower()` over the characters of a string (`.lower()` in the
filter predicate). -/
def lowerChars (cs : List Char) : List Char := cs.map Char.toLower

/-- Python `str.strip()`: drop leading and trailing whitespace. -/
def stripChars (cs : List Char) : List Char :=
  ((cs.dropWhile Char.isWhitespace).reverse.dropWhile Char.isWhitespace).reverse

/-- Does `needle` occur at the head of `hay`? (helper for the Python `in`
substring test). -/
def leadsChars : List Char → List Char → Bool
  | [], _ => true
  | _ :: _, [] => false
  | a :: as, b :: bs => a == b && leadsChars as bs

/-- Python substring test `needle in hay` over character lists. -/
def containsChars (needle : List Char) : List Char → Bool
  | [] => leadsChars needle []
  | c :: cs => leadsChars needle (c :: cs) || containsChars needle cs

/-- The list-comprehension predicate of the roster filter
(`app/main.py` lines 304-308): shot count at least `min_shots`, and either a
whitespace-only search (`search.strip() == ""`) or a case-insensitive
substring match (`search.lower() in name.lower()`). -/
def rosterPred (search : String) (min_shots : ℤ) (p : RosterEntry) : Bool :=
  decide (min_shots ≤ rosterShots p) &&
    (decide (stripChars search.toList = []) ||
      containsChars (lowerChars search.toList) (lowerChars (rosterName p).toList))

/-- The roster-snapshot filter of `get_players`
(`app/main.py` lines 304-309): filter, stable sort descending by shot count,
truncate to `limit`. -/
def roster_filter (data : List RosterEntry) (search : String) (min_shots : ℤ)
    (limit : ℕ) : List RosterEntry :=
  (sortDescBy (fun p => rosterShots p)
    (data.filter (rosterPred search min_shots))).take limit

/-- Request body of `POST /api/predict_shot` (`app/main.py` lines 37-43). -/
structure ShotRequest where
  LOC_X : ℚ
  LOC_Y : ℚ
  SHOT_DISTANCE : Option ℚ
  YEAR : ℤ
  SHOT_TYPE : String
  ACTION_TYPE : String

/-- The `SHOT_DISTANCE` entry of the dict passed to the model:
`req.SHOT_DISTANCE or ((req.LOC_X**2 + req.LOC_Y**2) ** 0.5)`
(`app/main.py` line 274).  Python `or` treats `None` and `0.0` as falsy;
`s` models the float square root `** 0.5`. -/
def shotDictDistance (s : ℚ → ℚ) (req : ShotRequest) : ℚ :=
  match req.SHOT_DISTANCE with
  | none => s (req.LOC_X ^ 2 + req.LOC_Y ^ 2)
  | some d => if d = 0 then s (req.LOC_X ^ 2 + req.LOC_Y ^ 2) else d

/-- Stable ascending insertion into a sorted list of years. -/
def insertAsc (e : ℤ) : List ℤ → List ℤ
  | [] => [e]
  | x :: xs => if e ≤ x then e :: x :: xs else x :: insertAsc e xs

/-- Python `sorted(years)`: ascending sort. -/
def sortAsc : List ℤ → List ℤ
  | [] => []
  | x :: xs => insertAsc x (sortAsc xs)

/-- `GET /api/years` (`app/main.py` lines 365-382).  `rpc` abstracts the
`get_available_years` call (`.ok` carries the extracted year list, empty when
`result.data` is falsy; `.error` when the call raises).  On a cache hit the
cached value is returned verbatim; on a miss the handler caches the RAW
`years` list for 3600s but returns `sorted(years)`; on RPC failure it
returns the empty list.  Returns (response `years` list, new cache state). -/
def get_years (c : CacheState (List ℤ)) (now : Time)
    (rpc : Except Unit (List ℤ)) : List ℤ × CacheState (List ℤ) :=
  match cache_get c "years" now with
  | (some cached, c2) => (cached, c2)
  | (none, c2) =>
      match rpc with
      | .ok years => (sortAsc years, cache_set c2 "years" years 3600 now)
      | .error _ => ([], c2)

/-- One row of the binned-shots query (`loc_x, loc_y, shot_made_flag`). -/
structure BinRow where
  loc_x : Option ℚ
  loc_y : Option ℚ
  shot_made_flag : Bool
deriving DecidableEq

/-- One element of the `bins` output list (`app/main.py` lines 601-609). -/
structure BinOut where
  x_bin : ℤ
  y_bin : ℤ
  attempts : ℕ
  made : ℕ
  fg_pct : ℚ
deriving DecidableEq

/-- Python `int()` truncation toward zero on a rational. -/
def pyInt (q : ℚ) : ℤ := if 0 ≤ q then ⌊q⌋ else -⌊-q⌋

/-- Per-axis bin assignment (`app/main.py` lines 594-595):
`int((v - mn) / step) if step else 0`. -/
def binIndex (v mn step : ℚ) : ℤ :=
  if step ≠ 0 then pyInt ((v - mn) / step) else 0

/-- Successful binned-shots payload (`app/main.py` lines 610-616). -/
structure BinsPayload where
  bins : List BinOut
  x_bins : ℕ
  y_bins : ℕ
  x_range : ℚ × ℚ
  y_range : ℚ × ℚ
deriving DecidableEq

/-- Extract `(loc_x, loc_y, shot_made_flag)` from every row, failing (like
the Python `TypeError` raised by `min`/`max`/arithmetic on `None`) as soon
as any coordinate is null. -/
def allCoords : List BinRow → Option (List (ℚ × ℚ × Bool))
  | [] => some []
  | r :: rs =>
      match r.loc_x, r.loc_y, allCoords rs with
      | some x, some y, some ps => some ((x, y, r.shot_made_flag) :: ps)
      | _, _, _ => none

/-- Core of the binned aggregation (`app/main.py` lines 586-616) over the
non-null coordinate triples (head `p`, tail `ps`): observed extents, per-axis
step `(max − min) / max(bins, 1)`, per-point bin assignment, grouping, and
the output list with `fg_pct = made / attempts`. -/
def binsCore (p : ℚ × ℚ × Bool) (ps : List (ℚ × ℚ × Bool))
    (x_bins y_bins : ℕ) : BinsPayload :=
  let min_x := (ps.map (fun t => t.1)).foldl min p.1
  let max_x := (ps.map (fun t => t.1)).foldl max p.1
  let min_y := (ps.map (fun t => t.2.1)).foldl min p.2.1
  let max_y := (ps.map (fun t => t.2.1)).foldl max p.2.1
  let x_step := (max_x - min_x) / (max x_bins 1 : ℕ)
  let y_step := (max_y - min_y) / (max y_bins 1 : ℕ)
  let entries := (p :: ps).map (fun t =>
    ((binIndex t.1 min_x x_step, binIndex t.2.1 min_y y_step), t.2.2))
  let out := (tally entries).map (fun kv =>
    BinOut.mk kv.1.1 kv.1.2 kv.2.attempts kv.2.made
      (if kv.2.attempts ≠ 0 then (kv.2.made : ℚ) / kv.2.attempts else 0))
  ⟨out, x_bins, y_bins, (min_x, max_x), (min_y, max_y)⟩

/-- `POST /api/player/shots/bins` aggregation (`app/main.py` lines 582-618)
on the fetched rows.  `none` stands for the `{"bins": []}` replies: the
empty row list returns it directly, and a null coordinate makes the Python
code raise inside the `try` (caught by the blanket `except`, which answers
`{"bins": []}` as well). -/
def shots_binned (rows : List BinRow) (x_bins y_bins : ℕ) : Option BinsPayload :=
  if rows = [] then none
  else
    match allCoords rows with
    | none => none
    | some [] => none
    | some (p :: ps) => some (binsCore p ps x_bins y_bins)

/-- The local sample aggregation of the players-list fallback
(`app/main.py` lines 339-358): group the sampled `(player_name,
shot_made_flag)` rows, keep groups with at least `min_shots` attempts, sort
descending by attempts, truncate. -/
def sampleAggregate (rows : List (String × Bool)) (min_shots : ℤ)
    (limit : ℕ) : List RosterEntry :=
  let counts := tally rows
  let players := counts.filterMap (fun kv =>
    if min_shots ≤ (kv.2.attempts : ℤ) then
      some (RosterEntry.mk (some kv.1) (some (kv.2.attempts : ℤ))
        (some (pyround 3
          (if kv.2.attempts ≠ 0 then (kv.2.made : ℚ) / kv.2.attempts else 0))))
    else none)
  (sortDescBy (fun p => rosterShots p) players).take limit

/-- `GET /api/players` (`app/main.py` lines 285-362) with the remote calls
abstracted: `snap` is `_players_cache["data"]` before the request;
`refresh` is the outcome of the snapshot reload when the handler triggers it
(`some data` only when the RPC succeeded with truthy data — the only case
that mutates the snapshot — and `none` otherwise); `rpc` is the
`get_players_with_stats` call (`.ok` carries `result.data or []`); `sample`
is the capped table-scan fallback.  Returns (players list, cache state). -/
def get_players (search : String) (min_shots : ℤ) (limit : ℕ)
    (c : CacheState (List RosterEntry)) (now : Time) (fetched_at : Time)
    (snap : Option (List RosterEntry))
    (refresh : Option (List RosterEntry))
    (rpc : Except Unit (List RosterEntry))
    (sample : Except Unit (List (String × Bool))) :
    List RosterEntry × CacheState (List RosterEntry) :=
  let cache_key := "players|" ++ search ++ "|" ++ toString min_shots
    ++ "|" ++ toString limit
  match cache_get c cache_key now with
  | (some cached, c2) => (cached, c2)
  | (none, c2) =>
      let snap2 := if snap = none ∨ snap = some [] ∨ now - fetched_at > 600 then
          (match refresh with | some d => some d | none => snap)
        else snap
      match snap2 with
      | some (p :: ps) =>
          let filtered := roster_filter (p :: ps) search min_shots limit
          (filtered, cache_set c2 cache_key filtered 120 now)
      | _ =>
          match rpc with
          | .ok players => (players, cache_set c2 cache_key players 300 now)
          | .error _ =>
              match sample with
              | .ok rows => (sampleAggregate rows min_shots limit, c2)
              | .error _ => ([], c2)

/-- `GET /api/player/{player_name}` (`app/main.py` lines 385-461) with the
remote calls abstracted.  `stats_cache` is the in-memory precompute map hit,
`file_cache` the durable-file hit (both consulted only when no year filter
is given); `rpc` is `get_player_stats` (`.ok none` = falsy `result.data`);
`fallback_rows` is the outcome of the raw-row paging loop.  The `Except ℕ`
result carries the HTTP error status (404 or 500) of a raised
`HTTPException`. -/
def get_player (player_name : String) (years : Option (List ℤ))
    (c : CacheState PlayerSummary) (now : Time)
    (stats_cache : Option PlayerSummary)
    (file_cache : Option PlayerSummary)
    (rpc : Except Unit (Option PlayerSummary))
    (fallback_rows : Except Unit (List ShotRow))
    (s : ℚ → ℚ) :
    Except ℕ PlayerSummary × CacheState PlayerSummary :=
  let key := "player|" ++ player_name ++ "|" ++ (match years with
    | some ys => if ys = [] then "all" else String.intercalate "," (ys.map toString)
    | none => "all")
  match cache_get c key now with
  | (some cached, c2) => (.ok cached, c2)
  | (none, c2) =>
      let cached_stats : Option PlayerSummary :=
        match years with
        | none => (match stats_cache with
            | some v => some v
            | none => file_cache)
        | some _ => none
      match cached_stats with
      | some v => (.ok v, cache_set c2 key v 600 now)
      | none =>
          match rpc with
          | .ok (some data) => (.ok data, cache_set c2 key data 300 now)
          | .ok none => (.error 404, c2)
          | .error _ =>
              match fallback_rows with
              | .ok rows =>
                  match _compute_stats_from_rows s rows with
                  | some stats => (.ok stats, cache_set c2 key stats 300 now)
                  | none => (.error 404, c2)
              | .error _ => (.error 500, c2)

/-- Response payload of the shots-list endpoint. -/
structure ShotsPayload where
  shots : List ShotRow
  total : ℕ
deriving DecidableEq

/-- `GET /api/player/{player_name}/shots` (`app/main.py` lines 464-521):
cache lookup, then the paging loop (abstracted as its overall outcome
`collected`, `.error` when any page query raises), then the payload; any
exception inside the `try` yields `{"shots": [], "total": 0}`. -/
def get_player_shots (player_name : String) (years : Option String) (limit : ℕ)
    (c : CacheState ShotsPayload) (now : Time)
    (collected : Except Unit (List ShotRow)) :
    ShotsPayload × CacheState ShotsPayload :=
  let key := "shots|" ++ player_name ++ "|" ++ (match years with
    | some y => if y = "" then "all" else y
    | none => "all") ++ "|" ++ toString limit
  match cache_get c key now with
  | (some cached, c2) => (cached, c2)
  | (none, c2) =>
      match collected with
      | .ok rows =>
          let payload : ShotsPayload := ⟨rows, rows.length⟩
          (payload, cache_set c2 key payload 600 now)
      | .error _ => (⟨[], 0⟩, c2)

theorem lookupKey_setKey {β : Type} (k : String) (v : β) (c : List (String × β)) :
    lookupKey k (setKey k v c) = some v := by
  induction c with
  | nil => simp [setKey, lookupKey]
  | cons hd tl ih =>
      obtain ⟨k2, v2⟩ := hd
      by_cases h : k2 = k
      · simp [setKey, lookupKey, h]
      · simp [setKey, lookupKey, h, ih]

theorem cache_get_set_eq {α : Type} (c : CacheState α) (k : String) (v : α)
    (ttl : ℤ) (now t : Time) :
    cache_get (cache_set c k v ttl now) k t =
      if t > now + (ttl : ℚ) then (none, popKey k (cache_set c k v ttl now))
      else (some v, cache_set c k v ttl now) := by
  have hlook : lookupKey k (cache_set c k v ttl now) = some (now + (ttl : ℚ), v) := by
    unfold cache_set
    exact lookupKey_setKey ..
  unfold cache_get
  rw [hlook]

/-- C1 (amended): after `cache_set(k, v, ttl)` at time `now` with `ttl > 0`,
an immediate `cache_get(k)` returns `v`; the entry stays visible at every
time up to and INCLUDING the expiry instant `now + ttl`; strictly after the
expiry instant, `cache_get(k)` returns absent and pops the expired entry
(lazy eviction on access). -/
theorem cache_set_get_ttl {α : Type} (c : CacheState α) (k : String) (v : α)
    (ttl : ℤ) (now later : Time) (httl : 0 < ttl) :
    (cache_get (cache_set c k v ttl now) k now).fst = some v ∧
    (later ≤ now + (ttl : ℚ) →
      (cache_get (cache_set c k v ttl now) k later).fst = some v) ∧
    (now + (ttl : ℚ) < later →
      cache_get (cache_set c k v ttl now) k later =
        (none, popKey k (cache_set c k v ttl now))) := by
  have httlq : (0 : ℚ) < (ttl : ℚ) := by exact_mod_cast httl
  refine ⟨?_, ?_, ?_⟩
  · rw [cache_get_set_eq]
    rw [if_neg (by linarith)]
  · intro hle
    rw [cache_get_set_eq]
    rw [if_neg (by linarith)]
  · intro hlt
    rw [cache_get_set_eq]
    rw [if_pos (by linarith)]

/-- Witness for `cache_set_get_ttl` at concrete inputs. -/
theorem cache_set_get_ttl_witness :
    (cache_get (cache_set ([] : CacheState ℤ) "k" 3 5 0) "k" 0).fst = some 3 ∧
    (cache_get (cache_set ([] : CacheState ℤ) "k" 3 5 0) "k" 2).fst = some 3 ∧
    cache_get (cache_set ([] : CacheState ℤ) "k" 3 5 0) "k" 6 =
      (none, popKey "k" (cache_set ([] : CacheState ℤ) "k" 3 5 0)) :=
  ⟨(cache_set_get_ttl [] "k" 3 5 0 2 (by decide)).1,
   (cache_set_get_ttl [] "k" 3 5 0 2 (by decide)).2.1 (by norm_num),
   (cache_set_get_ttl [] "k" 3 5 0 6 (by decide)).2.2 (by norm_num)⟩

/-- C1 counterexample: at the instant the current time EQUALS the expiry
(`now = 5 = 0 + 5`), `cache_get` still returns the value (the code tests
`monotonic() > expires_at` strictly), contradicting the claim that the entry
is absent at that instant. -/
theorem cache_expiry_instant_counterexample :
    (cache_get (cache_set ([] : CacheState ℤ) "k" 7 5 0) "k" 5).fst = some 7 := by
  rw [cache_get_set_eq, if_neg (by norm_num)]

/-- C2: on a non-empty row list the fallback aggregation reports
`total_shots = len(rows)`, `made_shots` = the number of rows whose made flag
is set, and `fg_pct = round(made/total, 3)`; on the empty list it yields no
summary. -/
theorem compute_stats_totals (s : ℚ → ℚ) (rows : List ShotRow) (hne : rows ≠ []) :
    _compute_stats_from_rows s [] = none ∧
    ∃ st : PlayerSummary,
      _compute_stats_from_rows s rows = some st ∧
      st.total_shots = rows.length ∧
      st.made_shots = (rows.filter (fun r => r.shot_made_flag)).length ∧
      st.fg_pct = pyround 3
        (((rows.filter (fun r => r.shot_made_flag)).length : ℚ) / rows.length) := by
  refine ⟨by simp [_compute_stats_from_rows], ?_⟩
  unfold _compute_stats_from_rows
  rw [if_neg hne]
  refine ⟨_, rfl, rfl, ?_, ?_⟩
  · exact List.countP_eq_length_filter _ _
  · have htot : rows.length ≠ 0 := by
      simpa [List.length_eq_zero] using hne
    simp only [List.countP_eq_length_filter]
    rw [if_pos htot]

/-- Witness for `compute_stats_totals` on a concrete two-row list. -/
theorem compute_stats_totals_witness :
    _compute_stats_from_rows (fun q => q) [] = none ∧
    ∃ st : PlayerSummary,
      _compute_stats_from_rows (fun q => q)
          [⟨some "A", some 0, some 0, true, some 4, none, none, some 2024⟩,
           ⟨some "A", some 0, some 0, false, some 24, none, none, some 2024⟩] = some st ∧
      st.total_shots =
        ([⟨some "A", some 0, some 0, true, some 4, none, none, some 2024⟩,
          ⟨some "A", some 0, some 0, false, some 24, none, none, some 2024⟩] :
            List ShotRow).length ∧
      st.made_shots =
        (([⟨some "A", some 0, some 0, true, some 4, none, none, some 2024⟩,
           ⟨some "A", some 0, some 0, false, some 24, none, none, some 2024⟩] :
            List ShotRow).filter (fun r => r.shot_made_flag)).length ∧
      st.fg_pct = pyround 3
        (((([⟨some "A", some 0, some 0, true, some 4, none, none, some 2024⟩,
             ⟨some "A", some 0, some 0, false, some 24, none, none, some 2024⟩] :
              List ShotRow).filter (fun r => r.shot_made_flag)).length : ℚ) /
          ([⟨some "A", some 0, some 0, true, some 4, none, none, some 2024⟩,
            ⟨some "A", some 0, some 0, false, some 24, none, none, some 2024⟩] :
             List ShotRow).length) :=
  compute_stats_totals (fun q => q) _ (by simp)

/-- C3: zone assignment is total and exhaustive over the five fixed zone
labels; the boundary distances 5, 10, 15 and 22 fall into the
lower-distance-inclusive bucket; a distance beyond 22 and an unresolvable
distance both fall into the final three-point bucket. -/
theorem zone_assignment_total (d : Option ℚ) (q : ℚ) (s : ℚ → ℚ) (r : ShotRow)
    (hq : 22 < q) (hr : resolveDist s r = none) :
    zoneLabel d ∈ ["Paint (0-5ft)", "Short (5-10ft)", "Mid (10-15ft)",
      "Long 2 (15-22ft)", "3PT (22+ft)"] ∧
    (["Paint (0-5ft)", "Short (5-10ft)", "Mid (10-15ft)",
      "Long 2 (15-22ft)", "3PT (22+ft)"] : List String).Nodup ∧
    zoneLabel (some 5) = "Paint (0-5ft)" ∧
    zoneLabel (some 10) = "Short (5-10ft)" ∧
    zoneLabel (some 15) = "Mid (10-15ft)" ∧
    zoneLabel (some 22) = "Long 2 (15-22ft)" ∧
    zoneLabel (some q) = "3PT (22+ft)" ∧
    rowZone s r = "3PT (22+ft)" := by
  refine ⟨?_, by decide, by norm_num [zoneLabel], by norm_num [zoneLabel],
    by norm_num [zoneLabel], by norm_num [zoneLabel], ?_, ?_⟩
  · match d with
    | none => simp [zoneLabel]
    | some x =>
        simp only [zoneLabel]
        split
        · simp
        · split
          · simp
          · split
            · simp
            · split <;> simp
  · simp only [zoneLabel]
    rw [if_neg (by linarith), if_neg (by linarith), if_neg (by linarith),
      if_neg (by linarith)]
  · rw [rowZone, hr, zoneLabel]

/-- Witness for `zone_assignment_total` at concrete inputs. -/
theorem zone_assignment_total_witness :
    zoneLabel (some 7) ∈ ["Paint (0-5ft)", "Short (5-10ft)", "Mid (10-15ft)",
      "Long 2 (15-22ft)", "3PT (22+ft)"] ∧
    (["Paint (0-5ft)", "Short (5-10ft)", "Mid (10-15ft)",
      "Long 2 (15-22ft)", "3PT (22+ft)"] : List String).Nodup ∧
    zoneLabel (some 5) = "Paint (0-5ft)" ∧
    zoneLabel (some 10) = "Short (5-10ft)" ∧
    zoneLabel (some 15) = "Mid (10-15ft)" ∧
    zoneLabel (some 22) = "Long 2 (15-22ft)" ∧
    zoneLabel (some 23) = "3PT (22+ft)" ∧
    rowZone (fun q => q) ⟨none, none, none, false, none, none, none, none⟩ =
      "3PT (22+ft)" :=
  zone_assignment_total (some 7) 23 (fun q => q)
    ⟨none, none, none, false, none, none, none, none⟩ (by norm_num) (by rfl)

theorem compute_stats_eq (s : ℚ → ℚ) (rows : List ShotRow) (hne : rows ≠ []) :
    _compute_stats_from_rows s rows = some {
      player_name := rows.head?.bind (fun r => r.player_name)
      total_shots := rows.length
      made_shots := rows.countP (fun r => r.shot_made_flag)
      fg_pct := if rows.length ≠ 0 then
        pyround 3 ((rows.countP (fun r => r.shot_made_flag) : ℚ) / rows.length) else 0
      avg_distance := (if distancesOf s rows = [] then none else
        some ((distancesOf s rows).sum / (distancesOf s rows).length)).map (pyround 1)
      shot_types := to_list (tally (rows.map (fun r => (stypeOf r, r.shot_made_flag))))
        (some (fun x => (x.attempts : ℤ))) none
      seasons := to_list (tally (rows.filterMap
        (fun r => r.year.map (fun y => (y, r.shot_made_flag)))))
        (some (fun x => x.key)) none
      zones := to_list (tally (rows.map (fun r => (rowZone s r, r.shot_made_flag))))
        (some (fun x => (x.attempts : ℤ))) none
      actions := to_list (tally (rows.map (fun r => (actionOf r, r.shot_made_flag))))
        (some (fun x => (x.attempts : ℤ))) (some 10) } := by
  unfold _compute_stats_from_rows
  rw [if_neg hne]

theorem sumAttempts_bump {K : Type} [DecidableEq K] (k : K) (b : Bool)
    (m : List (K × Counts)) :
    sumAttempts (bump k b m) = sumAttempts m + 1 := by
  induction m with
  | nil => simp [bump, sumAttempts]
  | cons hd tl ih =>
      obtain ⟨k2, c⟩ := hd
      by_cases h : k2 = k
      · simp only [bump, if_pos h, sumAttempts, List.map_cons, List.sum_cons]
        simp [sumAttempts] at ih ⊢
        omega
      · simp only [bump, if_neg h, sumAttempts, List.map_cons, List.sum_cons]
        simp only [sumAttempts] at ih
        omega

theorem sumMade_bump {K : Type} [DecidableEq K] (k : K) (b : Bool)
    (m : List (K × Counts)) :
    sumMade (bump k b m) = sumMade m + (if b then 1 else 0) := by
  induction m with
  | nil => simp [bump, sumMade]
  | cons hd tl ih =>
      obtain ⟨k2, c⟩ := hd
      by_cases h : k2 = k
      · simp only [bump, if_pos h, sumMade, List.map_cons, List.sum_cons]
        omega
      · simp only [bump, if_neg h, sumMade, List.map_cons, List.sum_cons]
        simp only [sumMade] at ih
        omega

theorem sumAttempts_foldl {K : Type} [DecidableEq K] (es : List (K × Bool))
    (m : List (K × Counts)) :
    sumAttempts (es.foldl (fun m e => bump e.1 e.2 m) m) = sumAttempts m + es.length := by
  induction es generalizing m with
  | nil => simp
  | cons e es ih =>
      simp only [List.foldl_cons, List.length_cons, ih, sumAttempts_bump]
      omega

theorem sumMade_foldl {K : Type} [DecidableEq K] (es : List (K × Bool))
    (m : List (K × Counts)) :
    sumMade (es.foldl (fun m e => bump e.1 e.2 m) m) =
      sumMade m + es.countP (fun e => e.2) := by
  induction es generalizing m with
  | nil => simp
  | cons e es ih =>
      simp only [List.foldl_cons, List.countP_cons, ih, sumMade_bump]
      cases h : e.2
      · simp [h]
      · simp [h]
        omega

theorem sumAttempts_tally {K : Type} [DecidableEq K] (es : List (K × Bool)) :
    sumAttempts (tally es) = es.length := by
  unfold tally
  rw [sumAttempts_foldl]
  simp [sumAttempts]

theorem sumMade_tally {K : Type} [DecidableEq K] (es : List (K × Bool)) :
    sumMade (tally es) = es.countP (fun e => e.2) := by
  unfold tally
  rw [sumMade_foldl]
  simp [sumMade]

theorem sum_map_insertDescBy {α : Type} (f : α → ℤ) (g : α → ℕ) (e : α) (l : List α) :
    ((insertDescBy f e l).map g).sum = g e + (l.map g).sum := by
  induction l with
  | nil => simp [insertDescBy]
  | cons x xs ih =>
      by_cases h : f x ≤ f e
      · simp [insertDescBy, h]
      · simp only [insertDescBy, if_neg h, List.map_cons, List.sum_cons, ih]
        omega

theorem sum_map_sortDescBy {α : Type} (f : α → ℤ) (g : α → ℕ) (l : List α) :
    ((sortDescBy f l).map g).sum = (l.map g).sum := by
  induction l with
  | nil => rfl
  | cons x xs ih =>
      simp only [sortDescBy, sum_map_insertDescBy, ih, List.map_cons, List.sum_cons]

theorem entriesAttempts_to_list_sorted {K : Type} [DecidableEq K]
    (es : List (K × Bool)) (f : Entry K → ℤ) :
    entriesAttempts (to_list (tally es) (some f) none) = es.length := by
  simp only [to_list, entriesAttempts]
  rw [sum_map_sortDescBy]
  have h : ((toEntries (tally es)).map (fun e => e.attempts)).sum
      = sumAttempts (tally es) := by
    simp only [toEntries, sumAttempts, List.map_map]
    rfl
  rw [h, sumAttempts_tally]

theorem entriesMade_to_list_sorted {K : Type} [DecidableEq K]
    (es : List (K × Bool)) (f : Entry K → ℤ) :
    entriesMade (to_list (tally es) (some f) none) = es.countP (fun e => e.2) := by
  simp only [to_list, entriesMade]
  rw [sum_map_sortDescBy]
  have h : ((toEntries (tally es)).map (fun e => e.made)).sum
      = sumMade (tally es) := by
    simp only [toEntries, sumMade, List.map_map]
    rfl
  rw [h, sumMade_tally]

theorem length_filterMap_year (rows : List ShotRow) :
    (rows.filterMap (fun r => r.year.map (fun y => (y, r.shot_made_flag)))).length
      = (rows.filter (fun r => r.year.isSome)).length := by
  induction rows with
  | nil => rfl
  | cons r rs ih =>
      cases h : r.year <;>
        simp [List.filterMap_cons, List.filter_cons, h, ih]

/-- C10: for non-empty rows the shot-type and zone breakdowns partition the
input (their attempts sum to `total_shots` and their made sum to
`made_shots`; a missing shot type is bucketed as "Unknown" and a missing
action type as "Other"), while the season breakdown counts only the rows
whose year is present, so its attempts can fall strictly short of
`total_shots` (last conjunct: a concrete one-row input where it does). -/
theorem compute_stats_partition (s : ℚ → ℚ) (rows : List ShotRow) (hne : rows ≠ []) :
    ∃ st : PlayerSummary,
      _compute_stats_from_rows s rows = some st ∧
      entriesAttempts st.shot_types = st.total_shots ∧
      entriesMade st.shot_types = st.made_shots ∧
      entriesAttempts st.zones = st.total_shots ∧
      entriesMade st.zones = st.made_shots ∧
      entriesAttempts st.seasons = (rows.filter (fun r => r.year.isSome)).length ∧
      entriesAttempts st.seasons ≤ st.total_shots ∧
      (∀ r : ShotRow, r.shot_type = none → stypeOf r = "Unknown") ∧
      (∀ r : ShotRow, r.action_type = none → actionOf r = "Other") ∧
      ∃ st2 : PlayerSummary,
        _compute_stats_from_rows s
          [⟨none, none, none, false, some 4, none, none, none⟩] = some st2 ∧
        entriesAttempts st2.seasons < st2.total_shots := by
  refine ⟨_, compute_stats_eq s rows hne, ?_, ?_, ?_, ?_, ?_, ?_, ?_, ?_, ?_⟩
  · rw [entriesAttempts_to_list_sorted, List.length_map]
  · rw [entriesMade_to_list_sorted, List.countP_map]
    rfl
  · rw [entriesAttempts_to_list_sorted, List.length_map]
  · rw [entriesMade_to_list_sorted, List.countP_map]
    rfl
  · rw [entriesAttempts_to_list_sorted, length_filterMap_year]
  · rw [entriesAttempts_to_list_sorted, length_filterMap_year]
    exact List.length_filter_le _ _
  · intro r hr
    simp [stypeOf, pyOrStr, hr]
  · intro r hr
    simp [actionOf, pyOrStr, hr]
  · refine ⟨_, compute_stats_eq s _ (by simp), ?_⟩
    rw [entriesAttempts_to_list_sorted]
    simp

/-- Witness for `compute_stats_partition` on a concrete one-row list. -/
theorem compute_stats_partition_witness :
    ∃ st : PlayerSummary,
      _compute_stats_from_rows (fun q => q)
          [⟨some "A", some 0, some 0, true, some 4, none, none, some 2024⟩] = some st ∧
      entriesAttempts st.shot_types = st.total_shots ∧
      entriesMade st.shot_types = st.made_shots ∧
      entriesAttempts st.zones = st.total_shots ∧
      entriesMade st.zones = st.made_shots ∧
      entriesAttempts st.seasons =
        (([⟨some "A", some 0, some 0, true, some 4, none, none, some 2024⟩] :
          List ShotRow).filter (fun r => r.year.isSome)).length ∧
      entriesAttempts st.seasons ≤ st.total_shots ∧
      (∀ r : ShotRow, r.shot_type = none → stypeOf r = "Unknown") ∧
      (∀ r : ShotRow, r.action_type = none → actionOf r = "Other") ∧
      ∃ st2 : PlayerSummary,
        _compute_stats_from_rows (fun q => q)
          [⟨none, none, none, false, some 4, none, none, none⟩] = some st2 ∧
        entriesAttempts st2.seasons < st2.total_shots :=
  compute_stats_partition (fun q => q) _ (by simp)

theorem mem_insertDescBy {α : Type} (f : α → ℤ) (e a : α) (l : List α) :
    a ∈ insertDescBy f e l ↔ a = e ∨ a ∈ l := by
  induction l with
  | nil => simp [insertDescBy]
  | cons x xs ih =>
      by_cases h : f x ≤ f e
      · simp only [insertDescBy, if_pos h, List.mem_cons]
      · simp only [insertDescBy, if_neg h, List.mem_cons, ih]
        tauto

theorem mem_sortDescBy {α : Type} (f : α → ℤ) (a : α) (l : List α) :
    a ∈ sortDescBy f l ↔ a ∈ l := by
  induction l with
  | nil => simp [sortDescBy]
  | cons x xs ih => simp [sortDescBy, mem_insertDescBy, ih]

theorem sorted_insertDescBy {α : Type} (f : α → ℤ) (e : α) (l : List α)
    (h : l.Pairwise (fun a b => f b ≤ f a)) :
    (insertDescBy f e l).Pairwise (fun a b => f b ≤ f a) := by
  induction l with
  | nil => simp [insertDescBy]
  | cons x xs ih =>
      rcases List.pairwise_cons.mp h with ⟨hx, hxs⟩
      by_cases hle : f x ≤ f e
      · simp only [insertDescBy, if_pos hle]
        refine List.Pairwise.cons ?_ h
        intro b hb
        rcases List.mem_cons.mp hb with rfl | hb
        · exact hle
        · exact le_trans (hx b hb) hle
      · simp only [insertDescBy, if_neg hle]
        refine List.Pairwise.cons ?_ (ih hxs)
        intro b hb
        rcases (mem_insertDescBy f e b xs).mp hb with rfl | hb
        · exact le_of_lt (lt_of_not_le hle)
        · exact hx b hb

theorem sorted_sortDescBy {α : Type} (f : α → ℤ) (l : List α) :
    (sortDescBy f l).Pairwise (fun a b => f b ≤ f a) := by
  induction l with
  | nil => simp [sortDescBy]
  | cons x xs ih => exact sorted_insertDescBy f x _ ih

theorem filter_insertDescBy {α : Type} (f : α → ℤ) (p : α → Bool) (e : α) (l : List α)
    (hp : ∀ x y, p x = true → p y = true → f x = f y) :
    (insertDescBy f e l).filter p = if p e then e :: l.filter p else l.filter p := by
  induction l with
  | nil =>
      simp only [insertDescBy, List.filter]
      cases hpe : p e <;> simp
  | cons x xs ih =>
      by_cases hle : f x ≤ f e
      · simp only [insertDescBy, if_pos hle]
        cases hpe : p e <;> simp [List.filter_cons, hpe]
      · simp only [insertDescBy, if_neg hle]
        cases hpe : p e
        · cases hpx : p x <;> simp [List.filter_cons, hpx, ih, hpe]
        · cases hpx : p x
          · simp [List.filter_cons, hpx, ih, hpe]
          · exact absurd (hp x e hpx hpe) (fun hxe => hle (le_of_eq hxe))

theorem filter_sortDescBy {α : Type} (f : α → ℤ) (p : α → Bool) (l : List α)
    (hp : ∀ x y, p x = true → p y = true → f x = f y) :
    (sortDescBy f l).filter p = l.filter p := by
  induction l with
  | nil => rfl
  | cons x xs ih =>
      rw [sortDescBy, filter_insertDescBy f p x _ hp, List.filter_cons, ih]

theorem to_list_top10_spec (es : List (String × Bool)) (a : ℕ) :
    (to_list (tally es) (some (fun x => (x.attempts : ℤ))) (some 10)).length ≤ 10 ∧
    (to_list (tally es) (some (fun x => (x.attempts : ℤ))) (some 10)).Pairwise
      (fun x y => y.attempts ≤ x.attempts) ∧
    (∀ e ∈ toEntries (tally es),
      e ∉ to_list (tally es) (some (fun x => (x.attempts : ℤ))) (some 10) →
      ∀ g ∈ to_list (tally es) (some (fun x => (x.attempts : ℤ))) (some 10),
        e.attempts ≤ g.attempts) ∧
    (∃ t, (to_list (tally es) (some (fun x => (x.attempts : ℤ))) (some 10)).filter
        (fun e => e.attempts == a) ++ t =
      (toEntries (tally es)).filter (fun e => e.attempts == a)) := by
  have hto : to_list (tally es) (some (fun x => (x.attempts : ℤ))) (some 10)
      = (sortDescBy (fun x => (x.attempts : ℤ)) (toEntries (tally es))).take 10 := by
    simp [to_list]
  have hsorted := sorted_sortDescBy (fun x : Entry String => (x.attempts : ℤ))
    (toEntries (tally es))
  have hbeq : ∀ x y : Entry String, (x.attempts == a) = true →
      (y.attempts == a) = true → ((x.attempts : ℤ)) = ((y.attempts : ℤ)) := by
    intro x y hx hy
    have hx2 : x.attempts = a := by simpa using hx
    have hy2 : y.attempts = a := by simpa using hy
    rw [hx2, hy2]
  rw [hto]
  refine ⟨List.length_take_le _ _, ?_, ?_, ?_⟩
  · have h2 : ((sortDescBy (fun x : Entry String => (x.attempts : ℤ))
        (toEntries (tally es))).take 10).Pairwise
          (fun x y => ((y.attempts : ℤ)) ≤ ((x.attempts : ℤ))) :=
      hsorted.sublist (List.take_sublist _ _)
    exact h2.imp (fun h => by exact_mod_cast h)
  · intro e he hnot g hg
    have hmem : e ∈ sortDescBy (fun x : Entry String => (x.attempts : ℤ))
        (toEntries (tally es)) := (mem_sortDescBy _ _ _).mpr he
    rw [← List.take_append_drop 10 (sortDescBy (fun x : Entry String => (x.attempts : ℤ))
      (toEntries (tally es)))] at hmem hsorted
    rcases List.mem_append.mp hmem with h1 | h2
    · exact absurd h1 hnot
    · have h3 := (List.pairwise_append.mp hsorted).2.2 g hg e h2
      exact_mod_cast h3
  · refine ⟨((sortDescBy (fun x : Entry String => (x.attempts : ℤ))
      (toEntries (tally es))).drop 10).filter (fun e => e.attempts == a), ?_⟩
    rw [← List.filter_append, List.take_append_drop]
    exact filter_sortDescBy _ _ _ hbeq

/-- C6: the action-type breakdown has at most 10 entries, is sorted
descending by attempts, keeps only highest-attempt entries (any entry of the
full table left out has attempts ≤ every kept entry), and breaks ties by
original encounter order (for each attempt count `a`, the kept entries with
that count form a prefix of the full table's encounter-ordered entries with
that count). -/
theorem actions_breakdown_top10 (s : ℚ → ℚ) (rows : List ShotRow)
    (hne : rows ≠ []) (a : ℕ) :
    ∃ st : PlayerSummary,
      _compute_stats_from_rows s rows = some st ∧
      st.actions.length ≤ 10 ∧
      st.actions.Pairwise (fun x y => y.attempts ≤ x.attempts) ∧
      (∀ e ∈ toEntries (tally (rows.map (fun r => (actionOf r, r.shot_made_flag)))),
        e ∉ st.actions → ∀ g ∈ st.actions, e.attempts ≤ g.attempts) ∧
      (∃ t, st.actions.filter (fun e => e.attempts == a) ++ t =
        (toEntries (tally (rows.map (fun r => (actionOf r, r.shot_made_flag))))).filter
          (fun e => e.attempts == a)) := by
  obtain ⟨h1, h2, h3, h4⟩ :=
    to_list_top10_spec (rows.map (fun r => (actionOf r, r.shot_made_flag))) a
  exact ⟨_, compute_stats_eq s rows hne, h1, h2, h3, h4⟩

/-- Witness for `actions_breakdown_top10` on a concrete one-row list. -/
theorem actions_breakdown_top10_witness :
    ∃ st : PlayerSummary,
      _compute_stats_from_rows (fun q => q)
          [⟨some "A", some 0, some 0, true, some 4, none, some "Jump Shot", some 2024⟩]
        = some st ∧
      st.actions.length ≤ 10 ∧
      st.actions.Pairwise (fun x y => y.attempts ≤ x.attempts) ∧
      (∀ e ∈ toEntries (tally (([⟨some "A", some 0, some 0, true, some 4, none,
          some "Jump Shot", some 2024⟩] : List ShotRow).map
            (fun r => (actionOf r, r.shot_made_flag)))),
        e ∉ st.actions → ∀ g ∈ st.actions, e.attempts ≤ g.attempts) ∧
      (∃ t, st.actions.filter (fun e => e.attempts == 1) ++ t =
        (toEntries (tally (([⟨some "A", some 0, some 0, true, some 4, none,
          some "Jump Shot", some 2024⟩] : List ShotRow).map
            (fun r => (actionOf r, r.shot_made_flag))))).filter
          (fun e => e.attempts == 1)) :=
  actions_breakdown_top10 (fun q => q) _ (by simp) 1

theorem length_insertDescBy {α : Type} (f : α → ℤ) (e : α) (l : List α) :
    (insertDescBy f e l).length = l.length + 1 := by
  induction l with
  | nil => rfl
  | cons x xs ih =>
      by_cases h : f x ≤ f e <;> simp [insertDescBy, h, ih]

theorem length_sortDescBy {α : Type} (f : α → ℤ) (l : List α) :
    (sortDescBy f l).length = l.length := by
  induction l with
  | nil => rfl
  | cons x xs ih => simp [sortDescBy, length_insertDescBy, ih]

theorem sortDescBy_eq_self_of_sorted {α : Type} (f : α → ℤ) (l : List α)
    (h : l.Pairwise (fun a b => f b ≤ f a)) : sortDescBy f l = l := by
  induction l with
  | nil => rfl
  | cons x xs ih =>
      rcases List.pairwise_cons.mp h with ⟨hx, hxs⟩
      rw [sortDescBy, ih hxs]
      cases xs with
      | nil => rfl
      | cons y ys =>
          rw [insertDescBy, if_pos (hx y (List.mem_cons_self y ys))]

theorem length_filter_mono {α : Type} (p q : α → Bool) (l : List α)
    (h : ∀ a, p a = true → q a = true) :
    (l.filter p).length ≤ (l.filter q).length := by
  induction l with
  | nil => simp
  | cons x xs ih =>
      rw [List.filter_cons, List.filter_cons]
      by_cases hp : p x = true
      · rw [if_pos hp, if_pos (h x hp)]
        simpa using ih
      · rw [if_neg hp]
        by_cases hq : q x = true
        · rw [if_pos hq]
          exact le_trans ih (Nat.le_succ _)
        · rw [if_neg hq]
          exact ih

theorem rosterPred_mono (search : String) (ms ms2 : ℤ) (hms : ms ≤ ms2)
    (p : RosterEntry) (h : rosterPred search ms2 p = true) :
    rosterPred search ms p = true := by
  simp only [rosterPred, Bool.and_eq_true, decide_eq_true_eq] at h ⊢
  exact ⟨le_trans hms h.1, h.2⟩

/-- C7 (amended): the roster filter is idempotent under re-application with
the same parameters and monotone in `min_shots`; every returned entry has
shot count ≥ `min_shots`; the result is sorted descending by shot count and
truncated to `limit`; and every returned entry's name contains the search
substring case-insensitively PROVIDED the search string is not
whitespace-only (a whitespace-only but non-empty search is stripped to empty
and matches every name). -/
theorem roster_filter_spec (data : List RosterEntry) (search : String)
    (min_shots ms2 : ℤ) (limit : ℕ) (hms : min_shots ≤ ms2) :
    roster_filter (roster_filter data search min_shots limit) search min_shots limit
      = roster_filter data search min_shots limit ∧
    (roster_filter data search ms2 limit).length ≤
      (roster_filter data search min_shots limit).length ∧
    (∀ p ∈ roster_filter data search min_shots limit,
      min_shots ≤ rosterShots p ∧
      (stripChars search.toList ≠ [] →
        containsChars (lowerChars search.toList)
          (lowerChars (rosterName p).toList) = true)) ∧
    (roster_filter data search min_shots limit).Pairwise
      (fun a b => rosterShots b ≤ rosterShots a) ∧
    (roster_filter data search min_shots limit).length ≤ limit := by
  have hmemP : ∀ p ∈ roster_filter data search min_shots limit,
      rosterPred search min_shots p = true := by
    intro p hp
    have h1 : p ∈ sortDescBy (fun p => rosterShots p)
        (data.filter (rosterPred search min_shots)) :=
      List.take_subset _ _ hp
    have h2 : p ∈ data.filter (rosterPred search min_shots) :=
      (mem_sortDescBy _ _ _).mp h1
    exact (List.mem_filter.mp h2).2
  have hsorted : (roster_filter data search min_shots limit).Pairwise
      (fun a b => rosterShots b ≤ rosterShots a) :=
    (sorted_sortDescBy (fun p => rosterShots p) _).sublist (List.take_sublist _ _)
  have hlen : (roster_filter data search min_shots limit).length ≤ limit := by
    unfold roster_filter
    exact List.length_take_le _ _
  refine ⟨?_, ?_, ?_, hsorted, hlen⟩
  · conv_lhs => rw [roster_filter]
    rw [List.filter_eq_self.mpr (hmemP), sortDescBy_eq_self_of_sorted _ _ hsorted,
      List.take_of_length_le hlen]
  · unfold roster_filter
    rw [List.length_take, List.length_take, length_sortDescBy, length_sortDescBy]
    exact min_le_min (le_refl limit)
      (length_filter_mono _ _ data (rosterPred_mono search min_shots ms2 hms))
  · intro p hp
    have h := hmemP p hp
    simp only [rosterPred, Bool.and_eq_true, decide_eq_true_eq,
      Bool.or_eq_true] at h
    refine ⟨h.1, ?_⟩
    intro htrim
    rcases h.2 with h2 | h2
    · exact absurd h2 htrim
    · exact h2

/-- Witness for `roster_filter_spec` at concrete inputs. -/
theorem roster_filter_spec_witness :
    roster_filter (roster_filter [⟨some "LeBron James", some 200, none⟩]
        "james" 100 5) "james" 100 5
      = roster_filter [⟨some "LeBron James", some 200, none⟩] "james" 100 5 ∧
    (roster_filter [⟨some "LeBron James", some 200, none⟩] "james" 150 5).length ≤
      (roster_filter [⟨some "LeBron James", some 200, none⟩] "james" 100 5).length ∧
    (∀ p ∈ roster_filter [⟨some "LeBron James", some 200, none⟩] "james" 100 5,
      (100 : ℤ) ≤ rosterShots p ∧
      (stripChars "james".toList ≠ [] →
        containsChars (lowerChars "james".toList)
          (lowerChars (rosterName p).toList) = true)) ∧
    (roster_filter [⟨some "LeBron James", some 200, none⟩] "james" 100 5).Pairwise
      (fun a b => rosterShots b ≤ rosterShots a) ∧
    (roster_filter [⟨some "LeBron James", some 200, none⟩] "james" 100 5).length ≤ 5 :=
  roster_filter_spec [⟨some "LeBron James", some 200, none⟩] "james" 100 150 5
    (by norm_num)

/-- C7 counterexample: with the whitespace-only search `" "` the stripped
check passes every entry, so `"Bob"` is returned even though its name does
not contain the literal search substring `" "`; the claim that every
returned entry's name contains the search substring is false as stated. -/
theorem roster_filter_whitespace_counterexample :
    roster_filter [⟨some "Bob", some 5, none⟩] " " 0 10 =
      [⟨some "Bob", some 5, none⟩] ∧
    containsChars (lowerChars " ".toList)
      (lowerChars ("Bob" : String).toList) = false := by
  constructor
  · rfl
  · rfl

/-- C9: in `predict_shot`, a provided `SHOT_DISTANCE` equal to 0 is treated
exactly like an absent one: the distance placed in the model's feature dict
is recomputed from the coordinates, and it is positive (hence not the
supplied 0) whenever the coordinates are not both zero and the square-root
model is positive on positive inputs. -/
theorem predict_shot_distance_zero (s : ℚ → ℚ) (req : ShotRequest)
    (h0 : req.SHOT_DISTANCE = some 0)
    (hs : ∀ q : ℚ, 0 < q → 0 < s q)
    (hxy : req.LOC_X ≠ 0 ∨ req.LOC_Y ≠ 0) :
    shotDictDistance s req =
      shotDictDistance s { req with SHOT_DISTANCE := none } ∧
    shotDictDistance s req = s (req.LOC_X ^ 2 + req.LOC_Y ^ 2) ∧
    0 < shotDictDistance s req := by
  have h1 : shotDictDistance s req = s (req.LOC_X ^ 2 + req.LOC_Y ^ 2) := by
    simp [shotDictDistance, h0]
  have h2 : shotDictDistance s { req with SHOT_DISTANCE := none }
      = s (req.LOC_X ^ 2 + req.LOC_Y ^ 2) := by
    simp [shotDictDistance]
  have hpos : 0 < req.LOC_X ^ 2 + req.LOC_Y ^ 2 := by
    rcases hxy with hx | hy
    · positivity
    · positivity
  exact ⟨h1.trans h2.symm, h1, h1 ▸ hs _ hpos⟩

/-- Witness for `predict_shot_distance_zero` at a concrete request. -/
theorem predict_shot_distance_zero_witness :
    shotDictDistance (fun q => q) ⟨3, 4, some 0, 2024, "3PT Field Goal", "Jump Shot"⟩ =
      shotDictDistance (fun q => q)
        { (⟨3, 4, some 0, 2024, "3PT Field Goal", "Jump Shot"⟩ : ShotRequest) with
          SHOT_DISTANCE := none } ∧
    shotDictDistance (fun q => q) ⟨3, 4, some 0, 2024, "3PT Field Goal", "Jump Shot"⟩ =
      (fun q : ℚ => q) ((3 : ℚ) ^ 2 + (4 : ℚ) ^ 2) ∧
    0 < shotDictDistance (fun q => q)
      ⟨3, 4, some 0, 2024, "3PT Field Goal", "Jump Shot"⟩ :=
  predict_shot_distance_zero (fun q => q)
    ⟨3, 4, some 0, 2024, "3PT Field Goal", "Jump Shot"⟩ rfl
    (fun _ hq => hq) (Or.inl (by norm_num))

/-- C4 (code bug exhibit): starting from an empty cache with the RPC
returning `[2024, 2023]`, the first `GET /api/years` response is the sorted
`[2023, 2024]`, but the handler caches the unsorted RPC list, so the second
request — a cache hit, returned verbatim — answers `[2024, 2023]`, which is
not ascending.  The sort is applied only on the miss path, after the
pre-sort list has been cached. -/
theorem get_years_cache_hit_unsorted :
    (get_years [] 0 (.ok [2024, 2023])).fst = [2023, 2024] ∧
    (get_years (get_years [] 0 (.ok [2024, 2023])).snd 1 (.ok [2024, 2023])).fst
      = [2024, 2023] ∧
    ¬ ([2024, 2023] : List ℤ).Pairwise (fun a b => a ≤ b) := by
  refine ⟨rfl, ?_, by decide⟩
  have hsnd : (get_years [] 0 (.ok [2024, 2023])).snd
      = cache_set [] "years" [2024, 2023] 3600 0 := rfl
  rw [hsnd]
  unfold get_years
  rw [cache_get_set_eq, if_neg (by norm_num)]

theorem cache_get_miss {α : Type} (c : CacheState α) (key : String) (now : Time)
    (h : lookupKey key c = none) : cache_get c key now = (none, c) := by
  unfold cache_get
  rw [h]

/-- C8: when every fallback tier fails, the list-shaped endpoints answer an
empty/zero-valued payload instead of propagating the error — `get_players`
returns `{"players": []}` and `get_player_shots` returns
`{"shots": [], "total": 0}` — while the singular-entity `get_player`
endpoint raises an HTTP error: 500 when even the raw-row fallback fails,
and 404 when the fallback succeeds with no rows (player absent). -/
theorem exhaustion_behavior (search : String) (min_shots : ℤ) (limit : ℕ)
    (cp : CacheState (List RosterEntry)) (now fa : Time)
    (hcp : lookupKey ("players|" ++ search ++ "|" ++ toString min_shots
      ++ "|" ++ toString limit) cp = none)
    (player : String) (years : Option (List ℤ)) (cs : CacheState PlayerSummary)
    (hcs : lookupKey ("player|" ++ player ++ "|" ++ (match years with
      | some ys => if ys = [] then "all" else String.intercalate "," (ys.map toString)
      | none => "all")) cs = none)
    (ys2 : Option String) (lim2 : ℕ) (ch : CacheState ShotsPayload)
    (hch : lookupKey ("shots|" ++ player ++ "|" ++ (match ys2 with
      | some y => if y = "" then "all" else y
      | none => "all") ++ "|" ++ toString lim2) ch = none)
    (s : ℚ → ℚ) :
    get_players search min_shots limit cp now fa none none (.error ()) (.error ())
      = ([], cp) ∧
    get_player player years cs now none none (.error ()) (.error ()) s
      = (.error 500, cs) ∧
    get_player player years cs now none none (.error ()) (.ok []) s
      = (.error 404, cs) ∧
    get_player_shots player ys2 lim2 ch now (.error ()) = (⟨[], 0⟩, ch) := by
  refine ⟨?_, ?_, ?_, ?_⟩
  · simp only [get_players]
    rw [cache_get_miss _ _ _ hcp]
    simp
  · simp only [get_player]
    rw [cache_get_miss _ _ _ hcs]
    cases years <;> rfl
  · simp only [get_player]
    rw [cache_get_miss _ _ _ hcs]
    cases years <;> rfl
  · simp only [get_player_shots]
    rw [cache_get_miss _ _ _ hch]

/-- Witness for `exhaustion_behavior` at concrete inputs. -/
theorem exhaustion_behavior_witness :
    get_players "" 100 100 [] 0 0 none none (.error ()) (.error ()) = ([], []) ∧
    get_player "X" none [] 0 none none (.error ()) (.error ()) (fun q => q)
      = (.error 500, []) ∧
    get_player "X" none [] 0 none none (.error ()) (.ok []) (fun q => q)
      = (.error 404, []) ∧
    get_player_shots "X" none 50000 [] 0 (.error ()) = (⟨[], 0⟩, []) :=
  exhaustion_behavior "" 100 100 [] 0 0 rfl "X" none [] rfl none 50000 [] rfl
    (fun q => q)

theorem allCoords_some_of_all (rows : List BinRow)
    (h : ∀ r ∈ rows, r.loc_x.isSome ∧ r.loc_y.isSome) :
    ∃ pts, allCoords rows = some pts ∧ pts.length = rows.length := by
  induction rows with
  | nil => exact ⟨[], rfl, rfl⟩
  | cons r rs ih =>
      obtain ⟨pts, hpts, hlen⟩ := ih (fun x hx => h x (List.mem_cons_of_mem _ hx))
      obtain ⟨hx, hy⟩ := h r (List.mem_cons_self _ _)
      obtain ⟨x, hx2⟩ := Option.isSome_iff_exists.mp hx
      obtain ⟨y, hy2⟩ := Option.isSome_iff_exists.mp hy
      refine ⟨(x, y, r.shot_made_flag) :: pts, ?_, by simp [hlen]⟩
      simp [allCoords, hx2, hy2, hpts]

theorem allCoords_none_of_null (rows : List BinRow)
    (h : ∃ r ∈ rows, r.loc_x = none ∨ r.loc_y = none) :
    allCoords rows = none := by
  induction rows with
  | nil => simp at h
  | cons r rs ih =>
      obtain ⟨r0, hr0, hnull⟩ := h
      rcases List.mem_cons.mp hr0 with rfl | hmem
      · rcases hnull with hx | hy
        · cases hly : r0.loc_y <;> simp [allCoords, hx, hly]
        · cases hlx : r0.loc_x <;> simp [allCoords, hy, hlx]
      · have h2 := ih ⟨r0, hmem, hnull⟩
        cases hlx : r.loc_x <;> cases hly : r.loc_y <;>
          simp [allCoords, hlx, hly, h2]

theorem made_le_attempts_bump {K : Type} [DecidableEq K] (k : K) (b : Bool)
    (m : List (K × Counts)) (h : ∀ kv ∈ m, kv.2.made ≤ kv.2.attempts) :
    ∀ kv ∈ bump k b m, kv.2.made ≤ kv.2.attempts := by
  induction m with
  | nil =>
      intro kv hkv
      simp only [bump, List.mem_singleton] at hkv
      subst hkv
      cases b <;> simp
  | cons hd tl ih =>
      obtain ⟨k2, c⟩ := hd
      intro kv hkv
      by_cases hk : k2 = k
      · simp only [bump, if_pos hk, List.mem_cons] at hkv
        rcases hkv with rfl | hkv
        · have hc := h (k2, c) (List.mem_cons_self _ _)
          simp only at hc ⊢
          cases b <;> simp <;> omega
        · exact h kv (List.mem_cons_of_mem _ hkv)
      · simp only [bump, if_neg hk, List.mem_cons] at hkv
        rcases hkv with rfl | hkv
        · exact h (k2, c) (List.mem_cons_self _ _)
        · exact ih (fun x hx => h x (List.mem_cons_of_mem _ hx)) kv hkv

theorem made_le_attempts_foldl {K : Type} [DecidableEq K]
    (es : List (K × Bool)) (m : List (K × Counts))
    (h : ∀ kv ∈ m, kv.2.made ≤ kv.2.attempts) :
    ∀ kv ∈ es.foldl (fun m e => bump e.1 e.2 m) m, kv.2.made ≤ kv.2.attempts := by
  induction es generalizing m with
  | nil => simpa using h
  | cons e es ih => exact ih _ (made_le_attempts_bump _ _ _ h)

theorem made_le_attempts_tally {K : Type} [DecidableEq K] (es : List (K × Bool)) :
    ∀ kv ∈ tally es, kv.2.made ≤ kv.2.attempts :=
  made_le_attempts_foldl es [] (by simp)

theorem sum_binouts (m : List ((ℤ × ℤ) × Counts)) :
    ((m.map (fun kv => BinOut.mk kv.1.1 kv.1.2 kv.2.attempts kv.2.made
      (if kv.2.attempts ≠ 0 then (kv.2.made : ℚ) / kv.2.attempts else 0))).map
        (fun b => b.attempts)).sum = sumAttempts m := by
  rw [List.map_map]
  unfold sumAttempts
  congr 1

theorem binsCore_sum (p : ℚ × ℚ × Bool) (ps : List (ℚ × ℚ × Bool))
    (xb yb : ℕ) :
    (((binsCore p ps xb yb).bins).map (fun b => b.attempts)).sum = ps.length + 1 := by
  simp only [binsCore]
  rw [sum_binouts, sumAttempts_tally, List.length_map, List.length_cons]

theorem binsCore_made_le (p : ℚ × ℚ × Bool) (ps : List (ℚ × ℚ × Bool))
    (xb yb : ℕ) :
    ∀ b ∈ (binsCore p ps xb yb).bins, b.made ≤ b.attempts := by
  simp only [binsCore]
  intro b hb
  rw [List.mem_map] at hb
  obtain ⟨kv, hkv, rfl⟩ := hb
  exact made_le_attempts_tally _ kv hkv

/-- C5 (amended): for a non-empty row list whose coordinates are all
non-null, the binned aggregation succeeds, the `attempts` of the returned
bins sum to the number of input rows, and every bin has `made ≤ attempts`;
per axis a point is assigned to bin `floor((value − min) / width)` when the
width is nonzero (the Python `int()` truncation equals the floor because
`value ≥ min`), and to bin 0 — the first bin — when the width is zero; a
row list containing a null coordinate instead yields the error/empty reply
carrying no bins. -/
theorem shots_binned_spec (rows : List BinRow) (x_bins y_bins : ℕ)
    (hne : rows ≠ []) (hall : ∀ r ∈ rows, r.loc_x.isSome ∧ r.loc_y.isSome)
    (v mn step : ℚ) (hstep : 0 < step) (hv : mn ≤ v) (rows2 : List BinRow)
    (hnull : ∃ r ∈ rows2, r.loc_x = none ∨ r.loc_y = none) :
    (∃ pl : BinsPayload, shots_binned rows x_bins y_bins = some pl ∧
      (pl.bins.map (fun b => b.attempts)).sum = rows.length ∧
      ∀ b ∈ pl.bins, b.made ≤ b.attempts) ∧
    binIndex v mn step = ⌊(v - mn) / step⌋ ∧
    binIndex v mn 0 = 0 ∧
    shots_binned rows2 x_bins y_bins = none := by
  refine ⟨?_, ?_, ?_, ?_⟩
  · obtain ⟨pts, hpts, hlen⟩ := allCoords_some_of_all rows hall
    cases pts with
    | nil =>
        exfalso
        cases rows with
        | nil => exact hne rfl
        | cons r rs => simp at hlen
    | cons p ps =>
        refine ⟨binsCore p ps x_bins y_bins, ?_, ?_,
          binsCore_made_le p ps x_bins y_bins⟩
        · unfold shots_binned
          rw [if_neg hne, hpts]
        · rw [binsCore_sum, ← hlen, List.length_cons]
  · unfold binIndex pyInt
    rw [if_pos hstep.ne', if_pos (div_nonneg (by linarith) hstep.le)]
  · simp [binIndex]
  · unfold shots_binned
    rcases eq_or_ne rows2 [] with rfl | h2
    · simp
    · rw [if_neg h2, allCoords_none_of_null rows2 hnull]

/-- Witness for `shots_binned_spec` at concrete inputs. -/
theorem shots_binned_spec_witness :
    (∃ pl : BinsPayload,
      shots_binned [⟨some 0, some 0, true⟩, ⟨some 3, some 4, false⟩] 25 20
        = some pl ∧
      (pl.bins.map (fun b => b.attempts)).sum =
        ([⟨some 0, some 0, true⟩, ⟨some 3, some 4, false⟩] : List BinRow).length ∧
      ∀ b ∈ pl.bins, b.made ≤ b.attempts) ∧
    binIndex 5 2 1 = ⌊((5 : ℚ) - 2) / 1⌋ ∧
    binIndex 5 2 0 = 0 ∧
    shots_binned [⟨none, some 1, true⟩] 25 20 = none :=
  shots_binned_spec [⟨some 0, some 0, true⟩, ⟨some 3, some 4, false⟩] 25 20
    (by simp) (by decide) 5 2 1 (by norm_num) (by norm_num)
    [⟨none, some 1, true⟩]
    ⟨⟨none, some 1, true⟩, List.mem_singleton.mpr rfl, Or.inl rfl⟩

/-- C5 counterexample: two shots at the identical point (1, 1) give both
axes zero width; the code assigns them to bin (0, 0) — the first bin — while
the claim's "clamped into the last bin when the axis width is zero" demands
the last bin, index 24, of the 25 requested x-bins. -/
theorem bins_zero_width_counterexample :
    (shots_binned [⟨some 1, some 1, true⟩, ⟨some 1, some 1, false⟩] 25 20).map
        (fun pl => pl.bins.map (fun b => (b.x_bin, b.y_bin)))
      = some [(0, 0)] ∧
    ¬ ((0 : ℤ) = 25 - 1) := by
  constructor
  · have h1 : shots_binned [⟨some 1, some 1, true⟩, ⟨some 1, some 1, false⟩] 25 20
        = some (binsCore (1, 1, true) [(1, 1, false)] 25 20) := by
      unfold shots_binned
      rw [if_neg (by simp)]
      rfl
    rw [h1]
    simp only [Option.map]
    norm_num [binsCore, binIndex, pyInt, tally, bump]
  · decide

end ShotIQ
